import Mathlib

/-!
Shallow embedding of the pix-store-dz server business logic
(src/server/storage.ts, src/server/routes.ts, src/shared/schema.ts).

Conventions of the embedding:

* JavaScript numbers (JSON numbers, the results of parseFloat on the SQL
  decimal(10,2) strings) are modelled as exact rationals Rat.  The source
  never performs an operation whose result depends on float rounding for
  the properties considered here; every arithmetic claim is about the
  algebraic structure of the computation.
* Each Drizzle table is a Lean list of records; a row's generated primary
  key is passed to a mutating operation as an explicit argument.
* The created-at and updated-at timestamp columns are modelled as a Nat
  counter on products (needed for the ordering in getProducts) and are
  omitted where no claim depends on them.
* A storage method that can throw is an Except String computation whose
  error is the message the method's catch block rethrows; the Postgres
  transaction in createOrder is modelled by returning the original state
  when the computation fails (rollback).
-/

namespace PixStore

/-- Row of the products table (src/shared/schema.ts, pgTable "products"). -/
structure Product where
  id : String
  name : String
  description : Option String
  price : Rat
  imageUrl : String
  images : List String
  sizes : List String
  colors : List String
  stock : Option Int
  isActive : Bool
  category : Option String
  createdAt : Nat
deriving DecidableEq

/-- Row of the wilayas table (src/shared/schema.ts, pgTable "wilayas"). -/
structure Wilaya where
  id : String
  code : String
  name : String
  deliveryPrice : Rat
deriving DecidableEq

/-- Row of the orders table (src/shared/schema.ts, pgTable "orders"). -/
structure Order where
  id : String
  customerName : String
  customerPhone : String
  wilayaId : String
  address : Option String
  subtotal : Rat
  deliveryPrice : Rat
  total : Rat
  status : String
deriving DecidableEq

/-- Row of the order_items table (src/shared/schema.ts, pgTable "order_items").
The quantity column is declared integer in SQL, but the TypeScript layer
passes the raw JSON number from the request through unchanged
(InsertOrderItem.quantity : number), so the in-flight value is modelled as
Rat; the insert in createOrder enforces the integer column: Postgres rejects
a non-integral value, so a persisted row always has an integral quantity. -/
structure OrderItem where
  orderId : String
  productId : String
  quantity : Rat
  price : Rat
deriving DecidableEq

/-- Row of the admins table (src/shared/schema.ts, pgTable "admins");
password holds the bcrypt hash. -/
structure Admin where
  id : String
  email : String
  password : String
deriving DecidableEq

/-- The persistent store: one list per table. -/
structure StoreState where
  products : List Product
  wilayas : List Wilaya
  orders : List Order
  orderItems : List OrderItem
  admins : List Admin
deriving DecidableEq

/-- An entry of the items array of a create-order request
(CreateOrderRequest in src/shared/schema.ts); quantity is a JSON number. -/
structure OrderReqItem where
  productId : String
  quantity : Rat
deriving DecidableEq

/-- CreateOrderRequest from src/shared/schema.ts. -/
structure CreateOrderRequest where
  customerName : String
  customerPhone : String
  wilayaId : String
  address : Option String
  items : List OrderReqItem
deriving DecidableEq

/-- DatabaseStorage.getProducts (storage.ts 62-73): select products where
isActive, ordered by createdAt descending. -/
def getProducts (s : StoreState) : List Product :=
  (s.products.filter (fun p => p.isActive)).mergeSort
    (fun a b => decide (b.createdAt ≤ a.createdAt))

/-- DatabaseStorage.getProduct (storage.ts 75-84): throws (message of the
catch block) on an empty id, otherwise returns the first row with that id;
it does NOT filter on isActive. -/
def getProduct (s : StoreState) (id : String) : Except String (Option Product) :=
  if id = "" then Except.error "Failed to fetch product"
  else Except.ok (s.products.find? (fun p => p.id == id))

/-- DatabaseStorage.deleteProduct (storage.ts 124-137): soft delete; sets
isActive false on every row with the id and reports whether any row
matched (the truthiness of the first returned row). -/
def deleteProduct (s : StoreState) (id : String) : Except String (StoreState × Bool) :=
  if id = "" then Except.error "Failed to delete product"
  else
    let updated := s.products.map (fun p => if p.id == id then { p with isActive := false } else p)
    let matched := s.products.any (fun p => p.id == id)
    Except.ok ({ s with products := updated }, matched)

/-- DatabaseStorage.getWilaya (storage.ts 275-284). -/
def getWilaya (s : StoreState) (id : String) : Except String (Option Wilaya) :=
  if id = "" then Except.error "Failed to fetch wilaya"
  else Except.ok (s.wilayas.find? (fun w => w.id == id))

/-- DatabaseStorage.updateWilayaDeliveryPrice (storage.ts 286-307): throws on
an empty id and on a negative price (both rethrown by the catch block as the
generic message); otherwise updates every matching row and returns the first
updated row, or none when the id is unknown. -/
def updateWilayaDeliveryPrice (s : StoreState) (id : String) (price : Rat) :
    Except String (StoreState × Option Wilaya) :=
  if id = "" then Except.error "Failed to update delivery price"
  else if price < 0 then Except.error "Failed to update delivery price"
  else
    let updated := s.wilayas.map
      (fun w => if w.id == id then { w with deliveryPrice := price } else w)
    Except.ok ({ s with wilayas := updated }, updated.find? (fun w => w.id == id))

/-- DatabaseStorage.updateOrderStatus (storage.ts 246-263): writes the given
status string (no enumeration check at this layer) and returns the updated
row, or none when the id is unknown. -/
def updateOrderStatus (s : StoreState) (id status : String) :
    Except String (StoreState × Option Order) :=
  if id = "" then Except.error "Failed to update order status"
  else
    let updated := s.orders.map
      (fun o => if o.id == id then { o with status := status } else o)
    Except.ok ({ s with orders := updated }, updated.find? (fun o => o.id == id))

/-- DatabaseStorage.getAdminByEmail (storage.ts 310-319). -/
def getAdminByEmail (s : StoreState) (email : String) : Except String (Option Admin) :=
  if email = "" then Except.error "Failed to fetch admin"
  else Except.ok (s.admins.find? (fun a => a.email == email))

/-- Helper for jsTrim: drop leading whitespace characters. -/
def dropLeadingWS : List Char → List Char
  | [] => []
  | c :: cs => if c.isWhitespace then dropLeadingWS cs else c :: cs

/-- Model of JavaScript String.prototype.trim (used by getCategories on the
category labels): remove whitespace from both ends of the string. -/
def jsTrim (s : String) : String :=
  String.mk (dropLeadingWS ((dropLeadingWS s.data.reverse).reverse))

/-- DatabaseStorage.getCategories (storage.ts 347-360): the distinct non-null
category values of active products, each trimmed, dropping empties.  Note the
distinct step happens on the raw values, before trimming. -/
def getCategories (s : StoreState) : List String :=
  ((((s.products.filter (fun p => p.isActive)).filterMap
      (fun p => p.category)).dedup).map (fun c => jsTrim c)).filter
    (fun c => c != "")

/-- DatabaseStorage.deleteCategory (storage.ts 377-390): clears the category
column on every product whose category is exactly the given label and reports
whether any row matched. -/
def deleteCategory (s : StoreState) (category : String) : Except String (StoreState × Bool) :=
  if category = "" then Except.error "Failed to delete category"
  else
    let updated := s.products.map
      (fun p => if p.category == some category then { p with category := none } else p)
    let matched := s.products.any (fun p => p.category == some category)
    Except.ok ({ s with products := updated }, matched)

/-- The for-loop over orderData.items in DatabaseStorage.createOrder
(storage.ts 194-208): resolve each product through getProduct, failing on the
first one that is absent, and accumulate the subtotal together with the
pending order_items rows (orderId is filled in after the order row exists). -/
def processOrderItems (s : StoreState) : List OrderReqItem → Except String (Rat × List OrderItem)
  | [] => Except.ok (0, [])
  | item :: rest =>
    match getProduct s item.productId with
    | Except.error e => Except.error e
    | Except.ok none => Except.error ("Product " ++ item.productId ++ " not found")
    | Except.ok (some product) =>
      match processOrderItems s rest with
      | Except.error e => Except.error e
      | Except.ok (subRest, itemsRest) =>
        Except.ok (product.price * item.quantity + subRest,
          { orderId := "", productId := item.productId,
            quantity := item.quantity, price := product.price } :: itemsRest)

/-- DatabaseStorage.createOrder (storage.ts 181-244): inside one transaction,
resolve the wilaya (error when absent), resolve every product and accumulate
the subtotal, compute total = subtotal + deliveryPrice, insert the order row
with status "pending" and the order_items rows carrying the new order id.
The order_items insert binds each quantity to the SQL integer column:
Postgres rejects a non-integral value (invalid input syntax for type
integer), the transaction rolls back, and createOrder rethrows the database
error — modelled by the integrality check on the rows about to be inserted.
Any error leaves the transaction rolled back (see createOrderState). -/
def createOrder (s : StoreState) (newOrderId : String) (req : CreateOrderRequest) :
    Except String (StoreState × Order) :=
  match getWilaya s req.wilayaId with
  | Except.error e => Except.error e
  | Except.ok none => Except.error ("Wilaya " ++ req.wilayaId ++ " not found")
  | Except.ok (some wilaya) =>
    match processOrderItems s req.items with
    | Except.error e => Except.error e
    | Except.ok (subtotal, orderItemsData) =>
      let deliveryPrice := wilaya.deliveryPrice
      let total := subtotal + deliveryPrice
      let order : Order :=
        { id := newOrderId, customerName := req.customerName,
          customerPhone := req.customerPhone, wilayaId := req.wilayaId,
          address := req.address, subtotal := subtotal,
          deliveryPrice := deliveryPrice, total := total, status := "pending" }
      let itemsWithOrderId := orderItemsData.map (fun it => { it with orderId := newOrderId })
      if itemsWithOrderId.all (fun it => it.quantity.den == 1) then
        let s' : StoreState :=
          { s with
              orders := s.orders ++ [order],
              orderItems := s.orderItems ++ itemsWithOrderId }
        Except.ok (s', order)
      else Except.error "invalid input syntax for type integer"

/-- The state of the store after a createOrder call: the new state on success,
the unchanged state on failure (the db.transaction rolls every write back). -/
def createOrderState (s : StoreState) (newOrderId : String) (req : CreateOrderRequest) :
    StoreState :=
  match createOrder s newOrderId req with
  | Except.ok (s', _) => s'
  | Except.error _ => s

/-- Whether a createOrder call succeeds. -/
def createOrderSucceeds (s : StoreState) (newOrderId : String) (req : CreateOrderRequest) :
    Bool :=
  match createOrder s newOrderId req with
  | Except.ok _ => true
  | Except.error _ => false

/-- The zod orderSchema of routes.ts 66-75: customerName, customerPhone and
wilayaId are strings of length at least 1, address is optional, items is a
non-empty array of entries whose productId has length at least 1 and whose
quantity is a number that is at least 1 (z.number().min(1) — there is no
integrality constraint). -/
def validateOrderRequest (req : CreateOrderRequest) : Bool :=
  (req.customerName != "") && (req.customerPhone != "") && (req.wilayaId != "") &&
  (!req.items.isEmpty) &&
  req.items.all (fun it => (it.productId != "") && decide ((1 : Rat) ≤ it.quantity))

/-- Response of POST /api/orders: 201 with the order, 400 "Invalid order
data" on a ZodError, 500 "Failed to create order" otherwise. -/
inductive OrderResponse where
  | created (o : Order)
  | invalidData
  | serverError
deriving DecidableEq

/-- POST /api/orders (routes.ts 219-231): parse the body against orderSchema
(a ZodError yields 400 before storage is touched), then storage.createOrder;
a storage error yields the generic 500. -/
def postOrderRoute (s : StoreState) (newOrderId : String) (req : CreateOrderRequest) :
    StoreState × OrderResponse :=
  if validateOrderRequest req then
    match createOrder s newOrderId req with
    | Except.ok (s', order) => (s', OrderResponse.created order)
    | Except.error _ => (s, OrderResponse.serverError)
  else (s, OrderResponse.invalidData)

/-- Response of POST /api/admin/login: 200 with the admin id and email,
401 with the message "Invalid credentials", or 500. -/
inductive LoginResponse where
  | success (adminId email : String)
  | invalidCredentials
  | serverError
deriving DecidableEq

/-- POST /api/admin/login (routes.ts 234-257), after the loginSchema parse:
look the account up by email; an unknown email and a failing
bcrypt.compare both return the same 401 "Invalid credentials" response.
bcrypt.compare is an external primitive, passed in as compareHash. -/
def adminLogin (compareHash : String → String → Bool) (s : StoreState)
    (email password : String) : LoginResponse :=
  match getAdminByEmail s email with
  | Except.error _ => LoginResponse.serverError
  | Except.ok none => LoginResponse.invalidCredentials
  | Except.ok (some admin) =>
    if compareHash password admin.password then LoginResponse.success admin.id admin.email
    else LoginResponse.invalidCredentials

/-- A JSON value as delivered in a request body. -/
inductive JsonValue where
  | jstring (s : String)
  | jnumber (q : Rat)
  | jobject (fields : List (String × JsonValue))

/-- A zod z.enum([...]) parse: it accepts exactly a JSON string that is one
of the allowed values; any other shape of input fails with an invalid_type
ZodError. -/
def zodEnumParse (allowed : List String) : JsonValue → Except String String
  | JsonValue.jstring v =>
    if allowed.contains v then Except.ok v else Except.error "Invalid enum value"
  | _ => Except.error "Expected string"

/-- The five order statuses of orderStatusSchema (routes.ts 77). -/
def orderStatusValues : List String :=
  ["pending", "confirmed", "shipped", "delivered", "cancelled"]

/-- Response of PUT /api/admin/orders/:id/status: 200 with the order,
404 "Order not found", 400 "Invalid status" on a ZodError, or 500. -/
inductive StatusResponse where
  | updated (o : Order)
  | notFound
  | invalidStatus
  | serverError
deriving DecidableEq

/-- PUT /api/admin/orders/:id/status (routes.ts 365-380).  The handler runs
orderStatusSchema.parse(req.body): the WHOLE JSON body is parsed against the
string enum.  The express json body parser (strict mode) only ever produces
an object or an array as req.body, and the admin client sends the object
with the single field status, so for every reachable body the parse throws
and the handler answers 400 "Invalid status".  In the bare-string branch
(unreachable over HTTP) the destructuring of the field status out of the
parsed string yields undefined in JavaScript, drizzle's set skips undefined
columns, and the row — status unchanged — or a 404 is returned. -/
def updateOrderStatusRoute (s : StoreState) (id : String) (body : JsonValue) :
    StoreState × StatusResponse :=
  match zodEnumParse orderStatusValues body with
  | Except.error _ => (s, StatusResponse.invalidStatus)
  | Except.ok _ =>
    match s.orders.find? (fun o => o.id == id) with
    | none => (s, StatusResponse.notFound)
    | some o => (s, StatusResponse.updated o)

/-- Response of PUT /api/admin/wilayas/:id/delivery-price: 200 with the
wilaya, 404 "Wilaya not found", 400 "Invalid price" on a ZodError, or 500. -/
inductive FeeResponse where
  | updated (w : Wilaya)
  | notFound
  | invalidPrice
  | serverError
deriving DecidableEq

/-- PUT /api/admin/wilayas/:id/delivery-price (routes.ts 383-398): the body
is parsed against z.object with price a number of at least 0 (a negative fee
is a ZodError, answered 400 before storage is touched), then
storage.updateWilayaDeliveryPrice; none means 404. -/
def updateDeliveryPriceRoute (s : StoreState) (id : String) (price : Rat) :
    StoreState × FeeResponse :=
  if price < 0 then (s, FeeResponse.invalidPrice)
  else
    match updateWilayaDeliveryPrice s id price with
    | Except.error _ => (s, FeeResponse.serverError)
    | Except.ok (s', none) => (s', FeeResponse.notFound)
    | Except.ok (s', some w) => (s', FeeResponse.updated w)

/-- The state of the store after deleteCategory (errors change nothing). -/
def deleteCategoryState (s : StoreState) (category : String) : StoreState :=
  match deleteCategory s category with
  | Except.ok (s', _) => s'
  | Except.error _ => s

/-- The matched-a-row flag of deleteCategory (false on error). -/
def deleteCategoryMatched (s : StoreState) (category : String) : Bool :=
  match deleteCategory s category with
  | Except.ok (_, b) => b
  | Except.error _ => false

end PixStore

namespace PixStore

/-! Helper lemmas about the update-where-id-matches pattern shared by the
drizzle update calls, and concrete fixtures for the witnesses. -/

/-- Updating rows selected by a predicate that matches no row leaves the
table unchanged. -/
theorem map_update_of_find?_none {α : Type} (l : List α) (p : α → Bool) (f : α → α)
    (h : l.find? p = none) : l.map (fun a => if p a then f a else a) = l := by
  induction l with
  | nil => rfl
  | cons x xs ih =>
    cases hx : p x with
    | true => simp [List.find?_cons, hx] at h
    | false =>
      simp only [List.find?_cons, hx] at h
      simp [hx, ih h]

/-- If the predicate finds a first matching row, and the update preserves the
predicate, the first matching row of the updated table is the updated row. -/
theorem find?_map_update_of_find?_some {α : Type} (l : List α) (p : α → Bool) (f : α → α)
    (hpres : ∀ a, p a = true → p (f a) = true) (a0 : α) (h : l.find? p = some a0) :
    (l.map (fun a => if p a then f a else a)).find? p = some (f a0) := by
  induction l with
  | nil => simp at h
  | cons x xs ih =>
    cases hx : p x with
    | true =>
      simp only [List.find?_cons, hx] at h
      cases h
      simp [List.find?_cons, hx, hpres a0 hx]
    | false =>
      simp only [List.find?_cons, hx] at h
      simp [List.find?_cons, hx, ih h]

/-- Fixture: a product row with the fields no claim depends on defaulted. -/
def mkProduct (id : String) (price : Rat) (isActive : Bool) (category : Option String) :
    Product :=
  { id := id, name := id, description := none, price := price, imageUrl := "img",
    images := [], sizes := [], colors := [], stock := some 0, isActive := isActive,
    category := category, createdAt := 0 }

/-- Fixture: a wilaya row. -/
def mkWilaya (id code name : String) (fee : Rat) : Wilaya :=
  { id := id, code := code, name := name, deliveryPrice := fee }

/-- Fixture: the empty store. -/
def emptyState : StoreState :=
  { products := [], wilayas := [], orders := [], orderItems := [], admins := [] }

/-- Claim C3: an order request whose items list is empty fails the
orderSchema validation and POST /api/orders answers 400 Invalid order data
with the store state exactly as before the call; storage.createOrder is
never invoked (the route only reaches it in the validated branch). -/
theorem claim3_empty_items_rejected (s : StoreState) (newOrderId : String)
    (req : CreateOrderRequest) (h : req.items = []) :
    postOrderRoute s newOrderId req = (s, OrderResponse.invalidData) := by
  unfold postOrderRoute validateOrderRequest
  simp [h]

/-- Witness for claim C3 at a concrete empty-items request. -/
theorem claim3_empty_items_rejected_witness :
    postOrderRoute emptyState "o1"
      { customerName := "a", customerPhone := "b", wilayaId := "w",
        address := none, items := [] }
      = (emptyState, OrderResponse.invalidData) :=
  claim3_empty_items_rejected emptyState "o1"
    { customerName := "a", customerPhone := "b", wilayaId := "w",
      address := none, items := [] } rfl

/-- Claim C4 (code bug): PUT /api/admin/orders/:id/status parses the whole
JSON body — always an object over HTTP — against the bare-string enum
orderStatusSchema, so every request is answered 400 Invalid status and the
store is never touched, even for a valid status and an existing order id;
the 404-for-unknown-id and update-for-known-id behaviour the claim describes
is unreachable. -/
theorem claim4_status_route_always_rejects (s : StoreState) (id : String)
    (fields : List (String × JsonValue)) :
    updateOrderStatusRoute s id (JsonValue.jobject fields)
      = (s, StatusResponse.invalidStatus) := rfl

/-- Claim C8: an unknown email and a known email with a password that fails
the bcrypt comparison produce the identical 401 Invalid credentials
response, so the login failure does not reveal whether the account exists. -/
theorem claim8_login_no_enumeration (compareHash : String → String → Bool)
    (s : StoreState) (email1 password1 email2 password2 : String) (a : Admin)
    (h1 : email1 ≠ "") (h2 : email2 ≠ "")
    (hunknown : s.admins.find? (fun x => x.email == email1) = none)
    (hfound : s.admins.find? (fun x => x.email == email2) = some a)
    (hwrong : compareHash password2 a.password = false) :
    adminLogin compareHash s email1 password1 = LoginResponse.invalidCredentials ∧
    adminLogin compareHash s email2 password2
      = adminLogin compareHash s email1 password1 := by
  unfold adminLogin getAdminByEmail
  simp [h1, h2, hunknown, hfound, hwrong]

/-- Fixture: a store with one admin account. -/
def loginState : StoreState :=
  { emptyState with admins := [{ id := "a1", email := "x@y.z", password := "hash1" }] }

/-- Witness for claim C8: in loginState, the unknown email u@y.z and the
known email x@y.z with a non-matching password get the same response. -/
theorem claim8_login_no_enumeration_witness :
    adminLogin (fun p h => p == h) loginState "u@y.z" "pw"
      = LoginResponse.invalidCredentials ∧
    adminLogin (fun p h => p == h) loginState "x@y.z" "wrong"
      = adminLogin (fun p h => p == h) loginState "u@y.z" "pw" :=
  claim8_login_no_enumeration (fun p h => p == h) loginState "u@y.z" "pw" "x@y.z" "wrong"
    { id := "a1", email := "x@y.z", password := "hash1" }
    (by decide) (by decide) (by decide) (by decide) (by decide)

end PixStore

namespace PixStore

/-- Claim C5: a negative fee is rejected with 400 and the store is
untouched; a non-negative fee with an unknown zone id yields 404 with the
store untouched; a non-negative fee with a known zone id returns the zone
updated to the new fee. -/
theorem claim5_fee_update (s : StoreState) (id : String) (price : Rat) :
    (price < 0 → updateDeliveryPriceRoute s id price = (s, FeeResponse.invalidPrice)) ∧
    (0 ≤ price → id ≠ "" → s.wilayas.find? (fun w => w.id == id) = none →
      updateDeliveryPriceRoute s id price = (s, FeeResponse.notFound)) ∧
    (0 ≤ price → id ≠ "" → ∀ w0, s.wilayas.find? (fun w => w.id == id) = some w0 →
      (updateDeliveryPriceRoute s id price).2
        = FeeResponse.updated { w0 with deliveryPrice := price }) := by
  refine ⟨fun hneg => ?_, fun hp hid hnone => ?_, fun hp hid w0 hsome => ?_⟩
  · unfold updateDeliveryPriceRoute
    rw [if_pos hneg]
  · have hmap := map_update_of_find?_none s.wilayas (fun w => w.id == id)
      (fun w => { w with deliveryPrice := price }) hnone
    unfold updateDeliveryPriceRoute updateWilayaDeliveryPrice
    rw [if_neg (not_lt.mpr hp), if_neg hid, if_neg (not_lt.mpr hp)]
    simp only [hmap, hnone]
  · have hmap := find?_map_update_of_find?_some s.wilayas (fun w => w.id == id)
      (fun w => { w with deliveryPrice := price }) (fun a ha => ha) w0 hsome
    unfold updateDeliveryPriceRoute updateWilayaDeliveryPrice
    rw [if_neg (not_lt.mpr hp), if_neg hid, if_neg (not_lt.mpr hp)]
    simp only [hmap]

/-- Fixture: a store with a single delivery zone, 16 - Alger with fee 300. -/
def feeState : StoreState :=
  { emptyState with wilayas := [mkWilaya "w16" "16" "Alger" 300] }

/-- Witness for claim C5 exercising all three branches on feeState. -/
theorem claim5_fee_update_witness :
    updateDeliveryPriceRoute feeState "w16" (-100) = (feeState, FeeResponse.invalidPrice) ∧
    updateDeliveryPriceRoute feeState "w99" 500 = (feeState, FeeResponse.notFound) ∧
    (updateDeliveryPriceRoute feeState "w16" 500).2
      = FeeResponse.updated { mkWilaya "w16" "16" "Alger" 300 with deliveryPrice := 500 } :=
  ⟨(claim5_fee_update feeState "w16" (-100)).1 (by norm_num),
   (claim5_fee_update feeState "w99" 500).2.1 (by norm_num) (by decide) rfl,
   (claim5_fee_update feeState "w16" 500).2.2 (by norm_num) (by decide)
     (mkWilaya "w16" "16" "Alger" 300) rfl⟩

/-- Claim C7: soft-deleting a stored product id reports success, removes the
product from the active listing getProducts, keeps every row (the id column
of the table is unchanged), and getProduct still returns the row, now with
isActive set to false. -/
theorem claim7_soft_delete (s : StoreState) (id : String) (hid : id ≠ "")
    (hpresent : s.products.any (fun p => p.id == id) = true) :
    ∀ s' matched, deleteProduct s id = Except.ok (s', matched) →
      matched = true ∧
      (getProducts s').all (fun p => p.id != id) = true ∧
      getProduct s' id
        = Except.ok ((s.products.find? (fun p => p.id == id)).map
            (fun p => { p with isActive := false })) ∧
      (s.products.find? (fun p => p.id == id)).isSome = true ∧
      s'.products.map (fun p => p.id) = s.products.map (fun p => p.id) := by
  intro s' matched hok
  unfold deleteProduct at hok
  rw [if_neg hid] at hok
  simp only [Except.ok.injEq, Prod.mk.injEq] at hok
  obtain ⟨hs', hm⟩ := hok
  subst hs'
  subst hm
  have hsome : (s.products.find? (fun p => p.id == id)).isSome = true := by
    rw [List.find?_isSome]
    obtain ⟨p, hp, hpid⟩ := List.any_eq_true.mp hpresent
    exact ⟨p, hp, hpid⟩
  obtain ⟨p0, hp0⟩ := Option.isSome_iff_exists.mp hsome
  refine ⟨hpresent, ?_, ?_, hsome, ?_⟩
  · rw [List.all_eq_true]
    intro p hp
    simp only [getProducts, List.mem_mergeSort, List.mem_filter, List.mem_map] at hp
    obtain ⟨⟨q, hq, hqp⟩, hact⟩ := hp
    cases hqid : (q.id == id) with
    | true =>
      rw [hqid] at hqp
      simp only [if_true] at hqp
      rw [← hqp] at hact
      simp at hact
    | false =>
      rw [hqid] at hqp
      simp only [Bool.false_eq_true, if_false] at hqp
      rw [← hqp]
      simpa [bne_iff_ne] using (by simpa using hqid : ¬(q.id = id))
  · unfold getProduct
    rw [if_neg hid]
    rw [find?_map_update_of_find?_some s.products (fun p => p.id == id)
      (fun p => { p with isActive := false }) (fun a ha => ha) p0 hp0, hp0]
    rfl
  · simp only [List.map_map]
    apply List.map_congr_left
    intro a _
    simp only [Function.comp_apply]
    split <;> rfl

/-- Fixture: a store with one active product. -/
def delState : StoreState :=
  { emptyState with products := [mkProduct "p1" 100 true none] }

/-- Fixture: delState after the soft delete of p1. -/
def delStateAfter : StoreState :=
  { emptyState with products := [{ mkProduct "p1" 100 true none with isActive := false }] }

/-- Witness for claim C7: after soft-deleting p1 the active listing holds no
product with id p1 while getProduct still returns the (now inactive) row. -/
theorem claim7_soft_delete_witness :
    (getProducts delStateAfter).all (fun p => p.id != "p1") = true ∧
    getProduct delStateAfter "p1"
      = Except.ok (some { mkProduct "p1" 100 true none with isActive := false }) := by
  have h := claim7_soft_delete delState "p1" (by decide) (by decide) delStateAfter true rfl
  refine ⟨h.2.1, ?_⟩
  rw [h.2.2.1]
  rfl

end PixStore

namespace PixStore

/-- Fixture: two active products whose categories are the exact label tee
and the whitespace variant with a trailing space. -/
def catVarState : StoreState :=
  { emptyState with products :=
      [mkProduct "p1" 100 true (some "tee"), mkProduct "p2" 100 true (some "tee ")] }

/-- Counterexample to claim C6 as stated: deleting the category tee matches
and clears the product stored with exactly that label, yet tee still
appears in the category listing afterwards, because another active product
carries the whitespace variant, which deleteCategory does not match but
getCategories trims to the same label. -/
theorem claim6_counterexample :
    deleteCategoryMatched catVarState "tee" = true ∧
    "tee" ∈ getCategories (deleteCategoryState catVarState "tee") := by
  constructor
  · rfl
  · decide

/-- Claim C6 (amended): deleting a non-empty category label clears the
category on every product stored with exactly that label, and the label no
longer appears in the category listing provided no product carries a
whitespace variant (a stored category different from the label whose trim
equals the label). -/
theorem claim6_category_delete_amended (s : StoreState) (label : String) (hl : label ≠ "")
    (hnovar : s.products.all (fun p =>
        match p.category with
        | none => true
        | some c => (!(jsTrim c == label)) || (c == label)) = true) :
    (deleteCategoryState s label).products.all
        (fun p => p.category != some label) = true ∧
    label ∉ getCategories (deleteCategoryState s label) := by
  have hstate : (deleteCategoryState s label).products
      = s.products.map
          (fun p => if p.category == some label then { p with category := none } else p) := by
    unfold deleteCategoryState deleteCategory
    rw [if_neg hl]
  constructor
  · rw [List.all_eq_true]
    intro p hp
    rw [hstate] at hp
    obtain ⟨q, hq, hqp⟩ := List.mem_map.mp hp
    cases hqc : (q.category == some label) with
    | true =>
      rw [hqc] at hqp
      simp only [if_true] at hqp
      rw [← hqp]
      simp
    | false =>
      rw [hqc] at hqp
      simp only [Bool.false_eq_true, if_false] at hqp
      rw [← hqp]
      simpa [bne_iff_ne] using (by simpa using hqc : ¬(q.category = some label))
  · intro hmem
    unfold getCategories at hmem
    rw [List.mem_filter] at hmem
    obtain ⟨hmem, -⟩ := hmem
    obtain ⟨c, hc, hctrim⟩ := List.mem_map.mp hmem
    rw [List.mem_dedup] at hc
    obtain ⟨p, hp, hpc⟩ := List.mem_filterMap.mp hc
    rw [List.mem_filter, hstate] at hp
    obtain ⟨hp, hact⟩ := hp
    obtain ⟨q, hq, hqp⟩ := List.mem_map.mp hp
    cases hqc : (q.category == some label) with
    | true =>
      rw [hqc] at hqp
      simp only [if_true] at hqp
      rw [← hqp] at hpc
      simp at hpc
    | false =>
      rw [hqc] at hqp
      simp only [Bool.false_eq_true, if_false] at hqp
      subst hqp
      have hq' := List.all_eq_true.mp hnovar q hq
      rw [hpc] at hq'
      simp only at hq'
      have hcne : ¬(c = label) := by
        intro hce
        subst hce
        rw [hpc] at hqc
        simp at hqc
      rw [Bool.or_eq_true, beq_iff_eq] at hq'
      rcases hq' with h | h
      · rw [Bool.not_eq_true'] at h
        rw [beq_eq_false_iff_ne] at h
        exact h hctrim
      · exact hcne h

/-- Fixture: two active products with distinct exact category labels. -/
def catState : StoreState :=
  { emptyState with products :=
      [mkProduct "p1" 100 true (some "casual"), mkProduct "p2" 100 true (some "sport")] }

/-- Witness for the amended claim C6 on a store without whitespace-variant
labels. -/
theorem claim6_category_delete_amended_witness :
    (deleteCategoryState catState "casual").products.all
        (fun p => p.category != some "casual") = true ∧
    "casual" ∉ getCategories (deleteCategoryState catState "casual") :=
  claim6_category_delete_amended catState "casual" (by decide) (by decide)

end PixStore

namespace PixStore

/-- A successful getProduct call returns exactly the find? result. -/
theorem getProduct_ok_find? (s : StoreState) (pid : String) (r : Option Product)
    (h : getProduct s pid = Except.ok r) :
    s.products.find? (fun p => p.id == pid) = r := by
  unfold getProduct at h
  by_cases hpid : pid = ""
  · rw [if_pos hpid] at h
    simp at h
  · rw [if_neg hpid] at h
    simpa using h

/-- The item loop of createOrder fails with the product-not-found message of
some requested product that has no stored row, whenever one is missing. -/
theorem processOrderItems_error_of_missing (s : StoreState) (items : List OrderReqItem)
    (hids : items.all (fun it => it.productId != "") = true)
    (hmiss : items.any
        (fun it => (s.products.find? (fun p => p.id == it.productId)).isNone) = true) :
    ∃ pid, pid ∈ items.map (fun it => it.productId) ∧
      s.products.find? (fun p => p.id == pid) = none ∧
      processOrderItems s items = Except.error ("Product " ++ pid ++ " not found") := by
  induction items with
  | nil => simp at hmiss
  | cons it rest ih =>
    rw [List.all_cons, Bool.and_eq_true] at hids
    obtain ⟨hid, hrest⟩ := hids
    have hidne : it.productId ≠ "" := by simpa [bne_iff_ne] using hid
    cases hfind : s.products.find? (fun p => p.id == it.productId) with
    | none =>
      have hgp : getProduct s it.productId = Except.ok none := by
        unfold getProduct
        rw [if_neg hidne, hfind]
      exact ⟨it.productId, by simp, hfind, by simp only [processOrderItems, hgp]⟩
    | some p =>
      have hgp : getProduct s it.productId = Except.ok (some p) := by
        unfold getProduct
        rw [if_neg hidne, hfind]
      have hmiss' : rest.any
          (fun x => (s.products.find? (fun q => q.id == x.productId)).isNone) = true := by
        rw [List.any_cons, Bool.or_eq_true] at hmiss
        rcases hmiss with h | h
        · rw [hfind] at h
          simp at h
        · exact h
      obtain ⟨pid, hmem, hnone, herr⟩ := ih hrest hmiss'
      refine ⟨pid, ?_, hnone, by simp only [processOrderItems, hgp, herr]⟩
      rw [List.map_cons]
      exact List.mem_cons_of_mem _ hmem

/-- The item loop of createOrder succeeds when every requested product id is
non-empty and has a stored row — isActive plays no role. -/
theorem processOrderItems_ok_of_present (s : StoreState) (items : List OrderReqItem)
    (hall : items.all (fun it => (it.productId != "") &&
        (s.products.find? (fun p => p.id == it.productId)).isSome) = true) :
    ∃ r, processOrderItems s items = Except.ok r := by
  induction items with
  | nil => exact ⟨(0, []), rfl⟩
  | cons it rest ih =>
    rw [List.all_cons, Bool.and_eq_true] at hall
    obtain ⟨hhead, hrest⟩ := hall
    rw [Bool.and_eq_true] at hhead
    obtain ⟨hid, hsome⟩ := hhead
    have hidne : it.productId ≠ "" := by simpa [bne_iff_ne] using hid
    obtain ⟨p, hp⟩ := Option.isSome_iff_exists.mp hsome
    have hgp : getProduct s it.productId = Except.ok (some p) := by
      unfold getProduct
      rw [if_neg hidne, hp]
    obtain ⟨r, hr⟩ := ih hrest
    obtain ⟨sub, data⟩ := r
    exact ⟨(p.price * it.quantity + sub,
        { orderId := "", productId := it.productId,
          quantity := it.quantity, price := p.price } :: data),
      by simp only [processOrderItems, hgp, hr]⟩

/-- A successful item loop returns a subtotal equal to the sum over the
produced rows of price times quantity, and every produced row's price is the
current price of the first stored product with its id. -/
theorem processOrderItems_sum_spec (s : StoreState) (items : List OrderReqItem)
    (sub : Rat) (data : List OrderItem)
    (h : processOrderItems s items = Except.ok (sub, data)) :
    (data.map (fun it => it.price * it.quantity)).sum = sub ∧
    data.all (fun it =>
      (s.products.find? (fun p => p.id == it.productId)).any
        (fun p => decide (p.price = it.price))) = true := by
  induction items generalizing sub data with
  | nil =>
    simp only [processOrderItems, Except.ok.injEq, Prod.mk.injEq] at h
    obtain ⟨h1, h2⟩ := h
    subst h1
    subst h2
    simp
  | cons it rest ih =>
    simp only [processOrderItems] at h
    cases hgp : getProduct s it.productId with
    | error e =>
      rw [hgp] at h
      simp at h
    | ok popt =>
      rw [hgp] at h
      cases popt with
      | none => simp at h
      | some p =>
        cases hrec : processOrderItems s rest with
        | error e =>
          rw [hrec] at h
          simp at h
        | ok r =>
          obtain ⟨subR, dataR⟩ := r
          rw [hrec] at h
          simp only [Except.ok.injEq, Prod.mk.injEq] at h
          obtain ⟨hsub, hdata⟩ := h
          subst hsub
          subst hdata
          obtain ⟨ihsum, ihall⟩ := ih subR dataR hrec
          constructor
          · rw [List.map_cons, List.sum_cons, ihsum]
          · rw [List.all_cons, Bool.and_eq_true]
            refine ⟨?_, ihall⟩
            have hfind := getProduct_ok_find? s it.productId (some p) hgp
            rw [hfind]
            simp

end PixStore

namespace PixStore

/-- Claim C2: a create-order request (with the non-empty ids the route
validation guarantees) whose delivery zone id or one of whose product ids
has no stored row makes createOrder fail with the not-found message naming
the missing entity, and the transaction leaves the store exactly as before:
no order row and no order-item row is written. -/
theorem claim2_missing_refs_fail (s : StoreState) (newOrderId : String)
    (req : CreateOrderRequest) (hW : req.wilayaId ≠ "")
    (hids : req.items.all (fun it => it.productId != "") = true)
    (hmiss : s.wilayas.find? (fun w => w.id == req.wilayaId) = none ∨
        req.items.any
          (fun it => (s.products.find? (fun p => p.id == it.productId)).isNone) = true) :
    createOrderState s newOrderId req = s ∧
    createOrderSucceeds s newOrderId req = false ∧
    (createOrder s newOrderId req
        = Except.error ("Wilaya " ++ req.wilayaId ++ " not found") ∨
      ∃ pid, pid ∈ req.items.map (fun it => it.productId) ∧
        s.products.find? (fun p => p.id == pid) = none ∧
        createOrder s newOrderId req
          = Except.error ("Product " ++ pid ++ " not found")) := by
  have herr : ∃ e, createOrder s newOrderId req = Except.error e ∧
      (e = "Wilaya " ++ req.wilayaId ++ " not found" ∨
        ∃ pid, pid ∈ req.items.map (fun it => it.productId) ∧
          s.products.find? (fun p => p.id == pid) = none ∧
          e = "Product " ++ pid ++ " not found") := by
    cases hw : s.wilayas.find? (fun w => w.id == req.wilayaId) with
    | none =>
      have hgw : getWilaya s req.wilayaId = Except.ok none := by
        unfold getWilaya
        rw [if_neg hW, hw]
      refine ⟨"Wilaya " ++ req.wilayaId ++ " not found", ?_, Or.inl rfl⟩
      simp only [createOrder, hgw]
    | some w =>
      have hgw : getWilaya s req.wilayaId = Except.ok (some w) := by
        unfold getWilaya
        rw [if_neg hW, hw]
      have hmiss' : req.items.any
          (fun it => (s.products.find? (fun p => p.id == it.productId)).isNone) = true := by
        rcases hmiss with h | h
        · rw [hw] at h
          cases h
        · exact h
      obtain ⟨pid, hmem, hnone, hperr⟩ :=
        processOrderItems_error_of_missing s req.items hids hmiss'
      refine ⟨"Product " ++ pid ++ " not found", ?_, Or.inr ⟨pid, hmem, hnone, rfl⟩⟩
      simp only [createOrder, hgw, hperr]
  obtain ⟨e, he, hcase⟩ := herr
  refine ⟨?_, ?_, ?_⟩
  · unfold createOrderState
    rw [he]
  · unfold createOrderSucceeds
    rw [he]
  · rcases hcase with h | ⟨pid, hmem, hnone, h⟩
    · exact Or.inl (h ▸ he)
    · exact Or.inr ⟨pid, hmem, hnone, h ▸ he⟩

/-- Fixture: one zone w16 and one product p1. -/
def orderMissState : StoreState :=
  { emptyState with
      wilayas := [mkWilaya "w16" "16" "Alger" 300],
      products := [mkProduct "p1" 1500 true none] }

/-- Fixture: a request naming the unknown zone w9. -/
def missingZoneReq : CreateOrderRequest :=
  { customerName := "c", customerPhone := "t", wilayaId := "w9", address := none,
    items := [{ productId := "p1", quantity := 1 }] }

/-- Witness for claim C2 at an unknown delivery zone id. -/
theorem claim2_missing_refs_fail_witness :
    createOrderState orderMissState "o2" missingZoneReq = orderMissState ∧
    createOrderSucceeds orderMissState "o2" missingZoneReq = false ∧
    createOrder orderMissState "o2" missingZoneReq
      = Except.error "Wilaya w9 not found" := by
  have h := claim2_missing_refs_fail orderMissState "o2" missingZoneReq
    (by decide) (by decide) (Or.inl rfl)
  exact ⟨h.1, h.2.1, rfl⟩

/-- all over a mapped list, for an arbitrary mapping function. -/
theorem list_all_map {α β : Type} (l : List α) (f : α → β) (p : β → Bool) :
    (l.map f).all p = l.all (fun a => p (f a)) := by
  induction l with
  | nil => rfl
  | cons x xs ih => simp [List.all_cons, ih]

/-- The rows produced by the item loop carry exactly the requested
quantities, in order. -/
theorem processOrderItems_quantities (s : StoreState) (items : List OrderReqItem)
    (sub : Rat) (data : List OrderItem)
    (h : processOrderItems s items = Except.ok (sub, data)) :
    data.map (fun it => it.quantity) = items.map (fun it => it.quantity) := by
  induction items generalizing sub data with
  | nil =>
    simp only [processOrderItems, Except.ok.injEq, Prod.mk.injEq] at h
    obtain ⟨-, h2⟩ := h
    subst h2
    rfl
  | cons it rest ih =>
    simp only [processOrderItems] at h
    cases hgp : getProduct s it.productId with
    | error e =>
      rw [hgp] at h
      simp at h
    | ok popt =>
      rw [hgp] at h
      cases popt with
      | none => simp at h
      | some p =>
        cases hrec : processOrderItems s rest with
        | error e =>
          rw [hrec] at h
          simp at h
        | ok r =>
          obtain ⟨subR, dataR⟩ := r
          rw [hrec] at h
          simp only [Except.ok.injEq, Prod.mk.injEq] at h
          obtain ⟨-, hdata⟩ := h
          subst hdata
          simp only [List.map_cons]
          rw [ih subR dataR hrec]

/-- A createOrder call that succeeds passed the integer-column insert:
every requested quantity is integral. -/
theorem createOrder_ok_integral (s : StoreState) (newOrderId : String)
    (req : CreateOrderRequest) (s' : StoreState) (order : Order)
    (hok : createOrder s newOrderId req = Except.ok (s', order)) :
    req.items.all (fun it => it.quantity.den == 1) = true := by
  unfold createOrder at hok
  cases hgw : getWilaya s req.wilayaId with
  | error e =>
    rw [hgw] at hok
    simp at hok
  | ok wopt =>
    rw [hgw] at hok
    cases wopt with
    | none => simp at hok
    | some w =>
      cases hpi : processOrderItems s req.items with
      | error e =>
        rw [hpi] at hok
        simp at hok
      | ok r =>
        obtain ⟨sub, data⟩ := r
        rw [hpi] at hok
        simp only [Except.ok.injEq, Prod.mk.injEq] at hok
        split at hok
        case isFalse => simp at hok
        case isTrue hg =>
          have hq := processOrderItems_quantities s req.items sub data hpi
          have hg2 : data.all (fun x => x.quantity.den == 1) = true := by
            rw [list_all_map] at hg
            exact hg
          have hg3 : (data.map (fun x => x.quantity)).all (fun q => q.den == 1) = true := by
            rw [list_all_map]
            exact hg2
          rw [hq, list_all_map] at hg3
          exact hg3

/-- A request containing a non-integral quantity is never persisted:
createOrder cannot succeed, whatever rows are stored. -/
theorem createOrder_fails_of_nonintegral (s : StoreState) (newOrderId : String)
    (req : CreateOrderRequest) (it : OrderReqItem) (hit : it ∈ req.items)
    (hden : it.quantity.den ≠ 1) :
    createOrderSucceeds s newOrderId req = false := by
  cases hco : createOrder s newOrderId req with
  | ok r =>
    obtain ⟨s', order⟩ := r
    have hint := createOrder_ok_integral s newOrderId req s' order hco
    have hthis := List.all_eq_true.mp hint it hit
    rw [beq_iff_eq] at hthis
    exact absurd hthis hden
  | error e =>
    unfold createOrderSucceeds
    rw [hco]

/-- When the references resolve but some quantity is non-integral, the
failure is exactly the database error of the order_items insert. -/
theorem createOrder_nonintegral_error (s : StoreState) (newOrderId : String)
    (req : CreateOrderRequest) (hW : req.wilayaId ≠ "")
    (hw : (s.wilayas.find? (fun w => w.id == req.wilayaId)).isSome = true)
    (hitems : req.items.all (fun it => (it.productId != "") &&
        (s.products.find? (fun p => p.id == it.productId)).isSome) = true)
    (it : OrderReqItem) (hit : it ∈ req.items) (hden : it.quantity.den ≠ 1) :
    createOrder s newOrderId req = Except.error "invalid input syntax for type integer" := by
  obtain ⟨w, hw'⟩ := Option.isSome_iff_exists.mp hw
  have hgw : getWilaya s req.wilayaId = Except.ok (some w) := by
    unfold getWilaya
    rw [if_neg hW, hw']
  obtain ⟨r, hr⟩ := processOrderItems_ok_of_present s req.items hitems
  obtain ⟨sub, data⟩ := r
  have hq := processOrderItems_quantities s req.items sub data hr
  have hguard : (data.map
      (fun x => ({ x with orderId := newOrderId } : OrderItem))).all
      (fun x => x.quantity.den == 1) = false := by
    by_contra hg
    rw [Bool.not_eq_false] at hg
    have hg2 : data.all (fun x => x.quantity.den == 1) = true := by
      rw [list_all_map] at hg
      exact hg
    have hg3 : (data.map (fun x => x.quantity)).all (fun q => q.den == 1) = true := by
      rw [list_all_map]
      exact hg2
    rw [hq, list_all_map] at hg3
    have hthis := List.all_eq_true.mp hg3 it hit
    simp only at hthis
    rw [beq_iff_eq] at hthis
    exact absurd hthis hden
  unfold createOrder
  rw [hgw, hr]
  simp [hguard]

/-- The quantity 3/2 is not integral. -/
theorem den_three_halves_ne_one : ((3 : Rat)/2).den ≠ 1 := by
  intro hden
  have hq := (Rat.den_eq_one_iff _).mp hden
  have h1 : (1 : Rat) < (((3 : Rat)/2).num : Rat) := by
    rw [hq]
    norm_num
  have h2 : ((((3 : Rat)/2).num : Rat)) < 2 := by
    rw [hq]
    norm_num
  have h1' : (1 : Int) < ((3 : Rat)/2).num := by exact_mod_cast h1
  have h2' : ((3 : Rat)/2).num < 2 := by exact_mod_cast h2
  omega

/-- Fixture: zone w16 and ONE soft-deleted product p1 (isActive false). -/
def inactiveState : StoreState :=
  { emptyState with
      wilayas := [mkWilaya "w16" "16" "Alger" 300],
      products := [mkProduct "p1" 1500 false none] }

/-- Fixture: a request for the soft-deleted product. -/
def inactiveReq : CreateOrderRequest :=
  { customerName := "c", customerPhone := "t", wilayaId := "w16", address := none,
    items := [{ productId := "p1", quantity := 1 }] }

/-- Fixture: a request for the soft-deleted product p1 with the
non-integral quantity 3/2. -/
def fracInactiveReq : CreateOrderRequest :=
  { customerName := "c", customerPhone := "t", wilayaId := "w16", address := none,
    items := [{ productId := "p1", quantity := 3/2 }] }

/-- Counterexample to claim C10 as stated: the delivery zone exists and the
(soft-deleted) product has a stored row, yet createOrder does not succeed -
the quantity 3/2 passes product resolution but the order_items integer
column rejects it and the transaction rolls back. -/
theorem claim10_counterexample :
    (inactiveState.wilayas.find?
        (fun w => w.id == fracInactiveReq.wilayaId)).isSome = true ∧
    fracInactiveReq.items.all
        (fun it => (inactiveState.products.find?
          (fun p => p.id == it.productId)).isSome) = true ∧
    createOrderSucceeds inactiveState "o10c" fracInactiveReq = false := by
  refine ⟨?_, ?_, ?_⟩
  · decide
  · decide
  · exact createOrder_fails_of_nonintegral inactiveState "o10c" fracInactiveReq
      { productId := "p1", quantity := 3/2 } (by simp [fracInactiveReq])
      den_three_halves_ne_one

/-- Claim C10 (amended): order placement never consults the product active
flag; when the zone exists, every requested product id (non-empty, as route
validation guarantees) has a stored row, and every quantity is integral (so
the order_items insert itself cannot fail), createOrder succeeds even for
soft-deleted rows, because product resolution goes through getProduct,
which does not filter on isActive. -/
theorem claim10_inactive_product_orderable (s : StoreState) (newOrderId : String)
    (req : CreateOrderRequest) (hW : req.wilayaId ≠ "")
    (hw : (s.wilayas.find? (fun w => w.id == req.wilayaId)).isSome = true)
    (hitems : req.items.all (fun it => (it.productId != "") &&
        (s.products.find? (fun p => p.id == it.productId)).isSome) = true)
    (hint : req.items.all (fun it => it.quantity.den == 1) = true) :
    createOrderSucceeds s newOrderId req = true := by
  obtain ⟨w, hw'⟩ := Option.isSome_iff_exists.mp hw
  have hgw : getWilaya s req.wilayaId = Except.ok (some w) := by
    unfold getWilaya
    rw [if_neg hW, hw']
  obtain ⟨r, hr⟩ := processOrderItems_ok_of_present s req.items hitems
  obtain ⟨sub, data⟩ := r
  have hq := processOrderItems_quantities s req.items sub data hr
  have hguard : (data.map
      (fun x => ({ x with orderId := newOrderId } : OrderItem))).all
      (fun x => x.quantity.den == 1) = true := by
    rw [list_all_map]
    have hg2 : (data.map (fun x => x.quantity)).all (fun q => q.den == 1) = true := by
      rw [hq, list_all_map]
      exact hint
    rw [list_all_map] at hg2
    exact hg2
  unfold createOrderSucceeds
  simp [createOrder, hgw, hr, hguard]

/-- Witness for the amended claim C10: the only stored product is
soft-deleted and the integral-quantity order is still created. -/
theorem claim10_inactive_product_orderable_witness :
    (mkProduct "p1" 1500 false none).isActive = false ∧
    inactiveState.products = [mkProduct "p1" 1500 false none] ∧
    createOrderSucceeds inactiveState "o10" inactiveReq = true :=
  ⟨rfl, rfl, claim10_inactive_product_orderable inactiveState "o10" inactiveReq
      (by decide) (by decide) (by decide) rfl⟩

end PixStore

namespace PixStore

/-- Claim C1: every order persisted by createOrder satisfies
total = subtotal + deliveryPrice, its subtotal is the sum over its
order-item rows of price times quantity, and each row's captured price is
the referenced product's current price at creation time.  The freshness
hypothesis says the generated order id is not already carried by a stored
order-item row (a generated primary key is new). -/
theorem claim1_order_totals (s : StoreState) (newOrderId : String)
    (req : CreateOrderRequest)
    (hfresh : s.orderItems.all (fun oi => oi.orderId != newOrderId) = true) :
    ∀ s' order, createOrder s newOrderId req = Except.ok (s', order) →
      order.total = order.subtotal + order.deliveryPrice ∧
      order.subtotal
        = ((s'.orderItems.filter (fun oi => oi.orderId == order.id)).map
            (fun oi => oi.price * oi.quantity)).sum ∧
      (s'.orderItems.filter (fun oi => oi.orderId == order.id)).all
        (fun oi => (s.products.find? (fun p => p.id == oi.productId)).any
          (fun p => decide (p.price = oi.price))) = true := by
  intro s' order hok
  unfold createOrder at hok
  cases hgw : getWilaya s req.wilayaId with
  | error e =>
    rw [hgw] at hok
    simp at hok
  | ok wopt =>
    rw [hgw] at hok
    cases wopt with
    | none => simp at hok
    | some w =>
      cases hpi : processOrderItems s req.items with
      | error e =>
        rw [hpi] at hok
        simp at hok
      | ok r =>
        obtain ⟨sub, data⟩ := r
        rw [hpi] at hok
        simp only [Except.ok.injEq, Prod.mk.injEq] at hok
        split at hok
        case isFalse => simp at hok
        simp only [Except.ok.injEq, Prod.mk.injEq] at hok
        obtain ⟨hs', horder⟩ := hok
        subst hs'
        subst horder
        obtain ⟨hsum, hall⟩ := processOrderItems_sum_spec s req.items sub data hpi
        have hfilter :
            (s.orderItems ++ data.map
                (fun it => ({ it with orderId := newOrderId } : OrderItem))).filter
                (fun oi => oi.orderId == newOrderId)
              = data.map (fun it => ({ it with orderId := newOrderId } : OrderItem)) := by
          rw [List.filter_append]
          have h1 : s.orderItems.filter (fun oi => oi.orderId == newOrderId) = [] := by
            rw [List.filter_eq_nil_iff]
            intro oi hoi
            have hne := List.all_eq_true.mp hfresh oi hoi
            simp only [bne_iff_ne, ne_eq] at hne
            simp [hne]
          have h2 : (data.map (fun it => ({ it with orderId := newOrderId } : OrderItem))).filter
              (fun oi => oi.orderId == newOrderId)
              = data.map (fun it => ({ it with orderId := newOrderId } : OrderItem)) := by
            rw [List.filter_eq_self]
            intro oi hoi
            obtain ⟨it, hit, hoi'⟩ := List.mem_map.mp hoi
            rw [← hoi']
            simp
          rw [h1, h2, List.nil_append]
        refine ⟨rfl, ?_, ?_⟩
        · show sub = _
          rw [hfilter]
          have hmm : (data.map (fun it => ({ it with orderId := newOrderId } : OrderItem))).map
              (fun oi => oi.price * oi.quantity)
              = data.map (fun it => it.price * it.quantity) := by
            rw [List.map_map]
            apply List.map_congr_left
            intro a _
            rfl
          rw [hmm]
          exact hsum.symm
        · rw [hfilter, List.all_map]
          exact hall

/-- Fixture: the spec example — products priced 1500 and 2500, zone
16 - Alger with fee 300. -/
def orderState1 : StoreState :=
  { emptyState with
      wilayas := [mkWilaya "w16" "16" "Alger" 300],
      products := [mkProduct "p1" 1500 true none, mkProduct "p2" 2500 true none] }

/-- Fixture: the spec example request with quantities 2 and 1. -/
def exReq1 : CreateOrderRequest :=
  { customerName := "c", customerPhone := "t", wilayaId := "w16", address := none,
    items := [{ productId := "p1", quantity := 2 }, { productId := "p2", quantity := 1 }] }

/-- Fixture: the order createOrder persists for exReq1 (arithmetic written
as computed). -/
def exOrder1 : Order :=
  { id := "o1", customerName := "c", customerPhone := "t", wilayaId := "w16",
    address := none, subtotal := 1500 * 2 + (2500 * 1 + 0), deliveryPrice := 300,
    total := 1500 * 2 + (2500 * 1 + 0) + 300, status := "pending" }

/-- Fixture: orderState1 after the order is persisted. -/
def orderState1After : StoreState :=
  { orderState1 with
      orders := [exOrder1],
      orderItems :=
        [{ orderId := "o1", productId := "p1", quantity := 2, price := 1500 },
         { orderId := "o1", productId := "p2", quantity := 1, price := 2500 }] }

/-- Witness for claim C1 on the spec example: subtotal 5500, total 5800. -/
theorem claim1_order_totals_witness :
    exOrder1.total = exOrder1.subtotal + exOrder1.deliveryPrice ∧
    exOrder1.subtotal = 5500 ∧
    exOrder1.total = 5800 ∧
    exOrder1.subtotal
      = ((orderState1After.orderItems.filter (fun oi => oi.orderId == exOrder1.id)).map
          (fun oi => oi.price * oi.quantity)).sum := by
  have h := claim1_order_totals orderState1 "o1" exReq1 rfl
    orderState1After exOrder1 rfl
  exact ⟨h.1, by norm_num [exOrder1], by norm_num [exOrder1], h.2.1⟩

end PixStore

namespace PixStore

/-- Fixture: zone w1 and product p1 priced 1000. -/
def fracState : StoreState :=
  { emptyState with
      wilayas := [mkWilaya "w1" "01" "Adrar" 800],
      products := [mkProduct "p1" 1000 true none] }

/-- Fixture: a request whose only item has the non-integer quantity 3/2. -/
def fracReq : CreateOrderRequest :=
  { customerName := "c", customerPhone := "t", wilayaId := "w1", address := none,
    items := [{ productId := "p1", quantity := 3/2 }] }

/-- Counterexample to claim C9 as stated: the quantity 3/2 is strictly
between the consecutive integers 1 and 2, yet the request is NOT rejected
by request validation — orderSchema accepts it (z.number().min(1) has no
integrality constraint) and storage is reached, where the order_items
integer-column insert fails inside the transaction; the route answers the
generic 500, a storage failure rather than the claimed validation
rejection, and no order row is persisted. -/
theorem claim9_counterexample :
    fracReq.items.map (fun it => it.quantity) = [3/2] ∧
    (1 : Rat) < 3/2 ∧ (3/2 : Rat) < 2 ∧
    validateOrderRequest fracReq = true ∧
    createOrder fracState "o9" fracReq
      = Except.error "invalid input syntax for type integer" ∧
    postOrderRoute fracState "o9" fracReq = (fracState, OrderResponse.serverError) := by
  have hval : validateOrderRequest fracReq = true := by
    norm_num [validateOrderRequest, fracReq]
    decide
  have hco := createOrder_nonintegral_error fracState "o9" fracReq (by decide) rfl
    (by decide) { productId := "p1", quantity := 3/2 } (by simp [fracReq])
    den_three_halves_ne_one
  refine ⟨rfl, by norm_num, by norm_num, hval, hco, ?_⟩
  simp [postOrderRoute, hval, hco]

/-- Claim C9 (amended): the orderSchema validation rejects any request
containing an item with quantity below 1 (zero, negative, or a fraction
below 1) before storage is touched, and every request it accepts has all
quantities at least 1 — but not necessarily integral, since
z.number().min(1) carries no integer constraint; a non-integral accepted
quantity then fails at the order_items integer-column insert inside the
transaction, so no order row is ever persisted for it, but as a storage
error, not a validation rejection. -/
theorem claim9_quantity_validation_amended (s : StoreState) (newOrderId : String)
    (req : CreateOrderRequest) :
    (∀ it ∈ req.items, it.quantity < 1 →
      postOrderRoute s newOrderId req = (s, OrderResponse.invalidData)) ∧
    (validateOrderRequest req = true → ∀ it ∈ req.items, (1 : Rat) ≤ it.quantity) ∧
    (∀ it ∈ req.items, it.quantity.den ≠ 1 →
      createOrderSucceeds s newOrderId req = false) := by
  have hquant : validateOrderRequest req = true →
      ∀ it ∈ req.items, (1 : Rat) ≤ it.quantity := by
    intro hv it hit
    unfold validateOrderRequest at hv
    simp only [Bool.and_eq_true] at hv
    obtain ⟨⟨⟨⟨-, -⟩, -⟩, -⟩, hall⟩ := hv
    have hthis := List.all_eq_true.mp hall it hit
    rw [Bool.and_eq_true] at hthis
    exact of_decide_eq_true hthis.2
  refine ⟨?_, hquant, ?_⟩
  · intro it hit hlt
    unfold postOrderRoute
    have hv : validateOrderRequest req = false := by
      cases hvb : validateOrderRequest req with
      | false => rfl
      | true => exact absurd (hquant hvb it hit) (not_le.mpr hlt)
    simp [hv]
  · intro it hit hden
    exact createOrder_fails_of_nonintegral s newOrderId req it hit hden

/-- Fixture: a request whose only item has quantity 0. -/
def zeroQtyReq : CreateOrderRequest :=
  { customerName := "c", customerPhone := "t", wilayaId := "w1", address := none,
    items := [{ productId := "p1", quantity := 0 }] }

/-- Witness for the amended claim C9: quantity 0 is rejected with 400, the
accepted request fracReq has its quantity 3/2 at least 1, and that
non-integral request is never persisted. -/
theorem claim9_quantity_validation_amended_witness :
    postOrderRoute fracState "o9z" zeroQtyReq = (fracState, OrderResponse.invalidData) ∧
    (1 : Rat) ≤ 3/2 ∧
    createOrderSucceeds fracState "o9w" fracReq = false := by
  refine ⟨?_, ?_, ?_⟩
  · exact (claim9_quantity_validation_amended fracState "o9z" zeroQtyReq).1
      { productId := "p1", quantity := 0 } (by simp [zeroQtyReq]) (by norm_num)
  · have hv : validateOrderRequest fracReq = true := by
      norm_num [validateOrderRequest, fracReq]
      decide
    exact (claim9_quantity_validation_amended fracState "o9f" fracReq).2.1 hv
      { productId := "p1", quantity := 3/2 } (by simp [fracReq])
  · exact (claim9_quantity_validation_amended fracState "o9w" fracReq).2.2
      { productId := "p1", quantity := 3/2 } (by simp [fracReq])
      den_three_halves_ne_one

end PixStore
